import Mathlib

/-!
Formal model of the vocab-stack application (src/app.py): the `Vocab` row type,
keyset pagination (`get_page`), free-text search (`search_db` and the `vocabs`
router), the create/edit/delete handlers, bulk delete, and the JSON archive
export (`archive_to_json`).  The relational store is modelled as a list of rows;
the SQL `ORDER BY` is modelled with `List.insertionSort`, `WHERE` with
`List.filter`, and `LIMIT` with `List.take`.  The `freq` column (a Python float
used only as a sort key) is modelled as `ℚ`; the word-frequency scorer
(`wordfreq.zipf_frequency`, an external library) is an arbitrary function
parameter `zf : String → ℚ`.  Write failures of the store (the UNIQUE and NOT
NULL constraints declared on the `Vocab` model) make the commit raise, which the
handlers catch and roll back, so the handler functions return the unchanged
store in those branches.
-/

/-- A persisted `Vocab` row (class `Vocab` in src/app.py).  `id` is the integer
primary key (non-null once stored), `word` the unique word, `context`/`source`
optional free text, `freq` the commonality score, `created_at` the creation
date rendered as a string. -/
structure Vocab where
  id : Nat
  word : String
  context : Option String
  source : Option String
  freq : ℚ
  created_at : String
deriving DecidableEq, Repr

/-- The relational table of rows, in insertion order. -/
abbrev Store := List Vocab

/-- `PAGE_SIZE = 5` in src/app.py. -/
def PAGE_SIZE : Nat := 5

/-- A pagination cursor: the `(last_freq, last_id)` pair. -/
def Cursor := ℚ × Nat

/-- The ordering used by `get_page`: `order_by(col(Vocab.freq).desc(), Vocab.id)`,
that is freq descending and, on ties, id ascending (no `.desc()` on the id). -/
def pageOrder (a b : Vocab) : Prop := b.freq < a.freq ∨ (a.freq = b.freq ∧ a.id ≤ b.id)

instance : DecidableRel pageOrder :=
  fun a b => inferInstanceAs (Decidable (b.freq < a.freq ∨ (a.freq = b.freq ∧ a.id ≤ b.id)))

instance : IsTotal Vocab pageOrder where
  total a b := by
    rcases lt_trichotomy a.freq b.freq with h | h | h
    · exact Or.inr (Or.inl h)
    · rcases Nat.le_total a.id b.id with hid | hid
      · exact Or.inl (Or.inr ⟨h, hid⟩)
      · exact Or.inr (Or.inr ⟨h.symm, hid⟩)
    · exact Or.inl (Or.inl h)

instance : IsTrans Vocab pageOrder where
  trans a b c hab hbc := by
    rcases hab with h1 | ⟨he1, hi1⟩
    · rcases hbc with h2 | ⟨he2, hi2⟩
      · exact Or.inl (h2.trans h1)
      · exact Or.inl (lt_of_le_of_lt he2.symm.le h1)
    · rcases hbc with h2 | ⟨he2, hi2⟩
      · exact Or.inl (lt_of_lt_of_le h2 he1.symm.le)
      · exact Or.inr ⟨he1.trans he2, le_trans hi1 hi2⟩

/-- The `WHERE` clause added by `get_page` when a cursor is present:
`freq < last_freq OR (freq == last_freq AND id < last_id)`; with no cursor all
rows pass. -/
def matchesCursor (cursor : Option Cursor) (v : Vocab) : Bool :=
  match cursor with
  | none => true
  | some (last_freq, last_id) =>
      decide (v.freq < last_freq) || (decide (v.freq = last_freq) && decide (v.id < last_id))

/-- The page wrapper returned by `get_page`: the emitted rows and `has_more`. -/
structure PageContext where
  vocabs : List Vocab
  has_more : Bool
deriving DecidableEq, Repr

/-- The `results` list of `get_page`, with the page size as a parameter `N`
(src/app.py fixes `N = PAGE_SIZE`): the ordered, cursor-filtered rows limited
to `N + 1`. -/
def fetchResultsN (N : Nat) (s : Store) (cursor : Option Cursor) : List Vocab :=
  (List.insertionSort pageOrder (List.filter (matchesCursor cursor) s)).take (N + 1)

/-- `get_page` with the page size as a parameter: emit the first `N` of the
`N + 1` fetched rows and set `has_more` when `N + 1` rows came back. -/
def get_pageN (N : Nat) (s : Store) (cursor : Option Cursor) : PageContext :=
  { vocabs := (fetchResultsN N s cursor).take N
    has_more := decide ((fetchResultsN N s cursor).length > N) }

/-- The `results` list of `get_page` at the configured `PAGE_SIZE`. -/
def fetchResults (s : Store) (cursor : Option Cursor) : List Vocab :=
  fetchResultsN PAGE_SIZE s cursor

/-- `get_page` from src/app.py at the configured `PAGE_SIZE`. -/
def get_page (s : Store) (cursor : Option Cursor) : PageContext :=
  get_pageN PAGE_SIZE s cursor

/-- The client pagination loop: call `get_page`, and while `has_more` holds
resume from the `(freq, id)` of the last emitted row, concatenating pages.
`fuel` bounds the number of requests. -/
def paginate : Nat → Store → Option Cursor → List Vocab
  | 0, _, _ => []
  | fuel + 1, s, cursor =>
    let ctx := get_page s cursor
    if ctx.has_more then
      match ctx.vocabs.getLast? with
      | some last => ctx.vocabs ++ paginate fuel s (some (last.freq, last.id))
      | none => ctx.vocabs
    else ctx.vocabs

/-- Case-insensitive substring test on char lists: does `needle` occur inside
`hay` after ASCII lowercasing (the semantics of SQL `LOWER . LIKE` used by
`icontains`)?  `leadMatch n h` tests whether `n` begins `h`. -/
def leadMatch : List Char → List Char → Bool
  | [], _ => true
  | _ :: _, [] => false
  | a :: as, b :: bs => a == b && leadMatch as bs

/-- Substring occurrence test (any position). -/
def subMatch (needle : List Char) : List Char → Bool
  | [] => needle.isEmpty
  | c :: rest => leadMatch needle (c :: rest) || subMatch needle rest

/-- `col.icontains(term)`: case-insensitive substring containment. -/
def icontains (hay term : String) : Bool :=
  subMatch (term.data.map Char.toLower) (hay.data.map Char.toLower)

/-- `icontains` on a nullable column: SQL `NULL LIKE ...` never matches. -/
def optIcontains (hay : Option String) (term : String) : Bool :=
  match hay with
  | none => false
  | some h => icontains h term

/-- The `WHERE` clause of `search_db`: the term occurs (case-insensitively) in
`word`, `context` or `source`. -/
def searchMatch (term : String) (v : Vocab) : Bool :=
  icontains v.word term || optIcontains v.context term || optIcontains v.source term

/-- The search ordering: `order_by(col(Vocab.freq).desc())`, freq descending
only. -/
def searchOrder (a b : Vocab) : Prop := b.freq ≤ a.freq

instance : DecidableRel searchOrder :=
  fun a b => inferInstanceAs (Decidable (b.freq ≤ a.freq))

instance : IsTotal Vocab searchOrder where
  total a b := le_total b.freq a.freq

instance : IsTrans Vocab searchOrder where
  trans _ _ _ hab hbc := le_trans hbc hab

/-- `search_db` from src/app.py: filter on the three text columns, order by
freq descending, return everything. -/
def search_db (s : Store) (term : String) : List Vocab :=
  List.insertionSort searchOrder (List.filter (searchMatch term) s)

/-- A candidate row as built by `Vocab(**new_fields)` before a commit: every
field may still be missing. -/
structure Candidate where
  id : Option Nat
  word : Option String
  context : Option String
  source : Option String
  freq : Option ℚ
deriving DecidableEq, Repr

/-- The responses the modelled handlers can produce. -/
inductive Response where
  | redirect (url : String)
  | newForm (c : Candidate)
  | editForm (v : Vocab)
  | httpError (code : Nat) (detail : String)
  | fullPage (ctx : PageContext)
  | fragment (ctx : PageContext)
  | template (v : Option Vocab)
  | jsonRow (v : Vocab)
  | crash (err : String)
  | text (t : String)
deriving DecidableEq, Repr

/-- The query parameters and origin header read by the `vocabs` route:
`q`, `last_freq`, `last_id` and the `HX-Trigger` header. -/
structure QueryParams where
  q : Option String
  last_freq : Option ℚ
  last_id : Option Nat
  hx_trigger : Option String
deriving DecidableEq, Repr

/-- The `vocabs` handler (GET /vocabs): with `q` present run `search_db` as a
single batch with `has_more = False` (fragment when triggered by active
search, full page otherwise); with a `load-more` trigger resume `get_page`
from `(float(last_freq), int(last_id))` (crashing like `float(None)` when a
parameter is absent); otherwise serve the first page. -/
def vocabs (s : Store) (p : QueryParams) : Response :=
  match p.q with
  | some term =>
    if p.hx_trigger = some "search" then
      Response.fragment { vocabs := search_db s term, has_more := false }
    else
      Response.fullPage { vocabs := search_db s term, has_more := false }
  | none =>
    if p.hx_trigger = some "load-more" then
      match p.last_freq, p.last_id with
      | some lf, some li => Response.fragment (get_page s (some (lf, li)))
      | _, _ => Response.crash "TypeError"
    else Response.fullPage (get_page s none)

/-- Form-field extraction of `vocabs_new_post`: empty form values are dropped
(`if v` in the dict comprehension). -/
def optOfField (s : String) : Option String := if s = "" then none else some s

/-- A submitted create/edit form with its three text fields. -/
structure VocabForm where
  word : String
  context : String
  source : String
deriving DecidableEq, Repr

/-- The `new_vocab` object built by `vocabs_new_post`: nonempty fields only,
with `freq` computed from `word` by the scorer exactly when `word` was kept. -/
def newCandidate (zf : String → ℚ) (f : VocabForm) : Candidate :=
  { id := none
    word := optOfField f.word
    context := optOfField f.context
    source := optOfField f.source
    freq := (optOfField f.word).map zf }

/-- The next primary key the store assigns on insert. -/
def nextId (s : Store) : Nat := (s.map Vocab.id).foldr max 0 + 1

/-- `vocabs_new_post` (POST /vocabs/new): build the candidate; a commit with a
missing `word` (hence missing `freq`) violates NOT NULL, and a duplicate
`word` violates UNIQUE — both raise, are caught, rolled back, and re-render
new.html with the candidate; otherwise the row is inserted and the handler
redirects. -/
def vocabs_new_post (zf : String → ℚ) (today : String) (s : Store) (f : VocabForm) :
    Store × Response :=
  match optOfField f.word with
  | none => (s, Response.newForm (newCandidate zf f))
  | some w =>
    if s.any (fun v => v.word == w) then
      (s, Response.newForm (newCandidate zf f))
    else
      (s ++ [{ id := nextId s
               word := w
               context := optOfField f.context
               source := optOfField f.source
               freq := zf w
               created_at := today }],
       Response.redirect "/vocabs")

/-- `session.get(Vocab, vid)`: primary-key lookup. -/
def findVocab (s : Store) (vid : Nat) : Option Vocab :=
  List.find? (fun v => v.id == vid) s

/-- `session.delete` of the row with the given id. -/
def eraseVocab (s : Store) (vid : Nat) : Store :=
  List.filter (fun v => !(v.id == vid)) s

/-- The row object after `db_vocab.sqlmodel_update(edit_fields)` in
`vocabs_edit_post`: all three form fields are applied verbatim (the edit form
does not drop empty values), and `freq` was recomputed beforehand exactly when
the submitted `word` differs from the stored one. -/
def updatedVocab (zf : String → ℚ) (db : Vocab) (f : VocabForm) : Vocab :=
  { db with
    word := f.word
    context := some f.context
    source := some f.source
    freq := if db.word = f.word then db.freq else zf f.word }

/-- `vocabs_edit_post` (POST /vocabs/{id}/edit): 404 when the id is absent;
otherwise update the row, where a commit whose `word` duplicates a different
row raises, is rolled back, and re-renders edit.html with the mutated object;
on success the store holds the updated row and the handler redirects. -/
def vocabs_edit_post (zf : String → ℚ) (s : Store) (vid : Nat) (f : VocabForm) :
    Store × Response :=
  match findVocab s vid with
  | none => (s, Response.httpError 404 "Vocab not found")
  | some db =>
    if s.any (fun v => !(v.id == vid) && v.word == f.word) then
      (s, Response.editForm (updatedVocab zf db f))
    else
      (List.map (fun v => if v.id = vid then updatedVocab zf db f else v) s,
       Response.redirect ("/vocabs/" ++ toString vid))

/-- `vocabs_view` (GET /vocabs/{id}): renders show.html with whatever the
lookup returned — `None` included. -/
def vocabs_view (s : Store) (vid : Nat) : Response :=
  Response.template (findVocab s vid)

/-- `vocabs_edit_get` (GET /vocabs/{id}/edit): renders edit.html with whatever
the lookup returned — `None` included. -/
def vocabs_edit_get (s : Store) (vid : Nat) : Response :=
  Response.template (findVocab s vid)

/-- `json_vocabs_view` (GET /api/v1/vocabs/{id}): calls `v.model_dump()` on the
lookup result, which raises `AttributeError` when the row is absent. -/
def json_vocabs_view (s : Store) (vid : Nat) : Response :=
  match findVocab s vid with
  | some v => Response.jsonRow v
  | none => Response.crash "AttributeError"

/-- `vocabs_delete` (DELETE /vocabs/{id}): 404 when the id is absent, else
delete and commit, answering a redirect to the delete button and empty text to
the inline link. -/
def vocabs_delete (s : Store) (vid : Nat) (hx_trigger : Option String) :
    Store × Response :=
  match findVocab s vid with
  | none => (s, Response.httpError 404 "Vocab not found")
  | some _ =>
    (eraseVocab s vid,
     if hx_trigger = some "delete-btn" then Response.redirect "/vocabs" else Response.text "")

/-- The loop body of `vocabs_delete_bulk`: delete and commit each id in turn,
stopping with the 404 detail at the first id whose row is absent; the store
reflects every commit made before the failure. -/
def deleteLoop : Store → List Nat → Store × Option String
  | s, [] => (s, none)
  | s, i :: rest =>
    match findVocab s i with
    | none => (s, some "Vocab not found")
    | some _ => deleteLoop (eraseVocab s i) rest

/-- `vocabs_delete_bulk` (DELETE /vocabs): run the loop; on success render the
first page, on failure surface the 404 — with the partially deleted store. -/
def vocabs_delete_bulk (s : Store) (ids : List Nat) : Store × Response :=
  match deleteLoop s ids with
  | (s₂, none) => (s₂, Response.fullPage (get_page s₂ none))
  | (s₂, some d) => (s₂, Response.httpError 404 d)

/-- One hex digit, lowercase. -/
def hexDigit (n : Nat) : Char := if n < 10 then Char.ofNat (48 + n) else Char.ofNat (87 + n)

/-- A `\uXXXX` escape for a (basic-plane) code point. -/
def uEscape (c : Char) : String :=
  "\\u" ++ String.mk [hexDigit (c.toNat / 4096 % 16), hexDigit (c.toNat / 256 % 16),
                      hexDigit (c.toNat / 16 % 16), hexDigit (c.toNat % 16)]

/-- The JSON string-escaping rule of `json.dump`: quotes, backslashes and
control characters are always escaped; characters outside ASCII are escaped
exactly when `ensure_ascii` is set, and kept literal otherwise. -/
def jsonEscapeChar (ensure_ascii : Bool) (c : Char) : String :=
  if c = '"' then "\\\""
  else if c = '\\' then "\\\\"
  else if c.toNat < 32 then uEscape c
  else if ensure_ascii && decide (128 ≤ c.toNat) then uEscape c
  else String.mk [c]

/-- Escape every character of a string body. -/
def escapeData (ensure_ascii : Bool) (cs : List Char) : List Char :=
  cs.flatMap (fun c => (jsonEscapeChar ensure_ascii c).data)

/-- A JSON string literal. -/
def jsonStr (ensure_ascii : Bool) (s : String) : String :=
  "\"" ++ String.mk (escapeData ensure_ascii s.data) ++ "\""

/-- A nullable JSON string. -/
def jsonOptStr (ensure_ascii : Bool) : Option String → String
  | none => "null"
  | some s => jsonStr ensure_ascii s

/-- The score rendered as a JSON number token. -/
def jsonRat (q : ℚ) : String :=
  toString q.num ++ (if q.den = 1 then "" else "/" ++ toString q.den)

/-- One row as serialized by `r.model_dump(mode='json')` + `json.dump`. -/
def rowToJson (ensure_ascii : Bool) (r : Vocab) : String :=
  "\x7b\"id\": " ++ toString r.id ++ ", \"word\": " ++ jsonStr ensure_ascii r.word ++
  ", \"context\": " ++ jsonOptStr ensure_ascii r.context ++
  ", \"source\": " ++ jsonOptStr ensure_ascii r.source ++
  ", \"freq\": " ++ jsonRat r.freq ++
  ", \"created_at\": " ++ jsonStr ensure_ascii r.created_at ++ "\x7d"

/-- Join the serialized rows with the separators `json.dump` puts between
array elements. -/
def joinRows : List String → String
  | [] => ""
  | [r] => r
  | r :: rest => r ++ ",\n" ++ joinRows rest

/-- The full dump of the row list as one JSON array. -/
def jsonDump (ensure_ascii : Bool) (rows : List Vocab) : String :=
  "[" ++ joinRows (rows.map (rowToJson ensure_ascii)) ++ "]"

/-- Whether a Python call returned or raised. -/
inductive PyOutcome where
  | ok : PyOutcome
  | raised : String → PyOutcome
deriving DecidableEq, Repr

/-- What `archive_to_json` leaves behind: the output path, the file content it
wrote, and how the call ended. -/
structure ArchiveOutcome where
  out_file : String
  content : String
  result : PyOutcome
deriving DecidableEq, Repr

/-- `archive_to_json` from src/app.py: select all rows, dump them with
`ensure_ascii=False` to the output file, then `raise NotImplementedError`
unconditionally. -/
def archive_to_json (s : Store) (out_file : String) : ArchiveOutcome :=
  { out_file := out_file
    content := jsonDump false s
    result := PyOutcome.raised "NotImplementedError" }

/-- Frequency consistency: every stored row's `freq` is the scorer's value for
its current `word`. -/
def consistentFreq (zf : String → ℚ) (s : Store) : Prop :=
  ∀ v ∈ s, v.freq = zf v.word

/-- Entry A of the spec's worked example: freq 5.0, id 1. -/
def rowA : Vocab := ⟨1, "a", none, none, 5, "2024-01-01"⟩

/-- Entry B of the spec's worked example: freq 5.0, id 2. -/
def rowB : Vocab := ⟨2, "b", none, none, 5, "2024-01-01"⟩

/-- Entry C of the spec's worked example: freq 3.0, id 3. -/
def rowC : Vocab := ⟨3, "c", none, none, 3, "2024-01-01"⟩

/-- Six rows with one shared freq value, ids 1..6. -/
def tieVocab (i : Nat) : Vocab := ⟨i, "w", none, none, 1, "2024-01-01"⟩

/-- A store of six freq-tied rows. -/
def tieStore : Store :=
  [tieVocab 1, tieVocab 2, tieVocab 3, tieVocab 4, tieVocab 5, tieVocab 6]

/-- A concrete scorer for witnesses: the word length. -/
def zfW : String → ℚ := fun w => (w.length : ℚ)

/-- Concrete query parameters: a search with a stale cursor attached. -/
def qpW : QueryParams := ⟨some "a", some 5, some 1, some "search"⟩

/-- A row with non-ASCII text for the archive witness. -/
def rowN : Vocab := ⟨7, "año", some "niño", none, 2, "2024-01-01"⟩

/-- Claim C1 (code bug): the claim says `get_page` rows come in strict
`(freq desc, id desc)` order, so the first page of size 2 over
A(5.0,1), B(5.0,2), C(3.0,3) would be `[B, A]`.  The code orders freq-ties by
id ascending (`order_by` lacks `.desc()` on the id), so the first page is
`[A, B]`, not sorted by `(freq desc, id desc)`; the cursor page `[C]` with
`has_more = false` does hold, and the mis-ordering shows at `PAGE_SIZE` too. -/
theorem get_page_tie_order_eval :
    (get_pageN 2 [rowA, rowB, rowC] none).vocabs = [rowA, rowB]
    ∧ (get_pageN 2 [rowA, rowB, rowC] none).has_more = true
    ∧ (get_pageN 2 [rowA, rowB, rowC] none).vocabs ≠ [rowB, rowA]
    ∧ ¬ List.Pairwise (fun x y => y.freq < x.freq ∨ (x.freq = y.freq ∧ y.id < x.id))
        ((get_pageN 2 [rowA, rowB, rowC] none).vocabs)
    ∧ (get_pageN 2 [rowA, rowB, rowC] (some ((5 : ℚ), 1))).vocabs = [rowC]
    ∧ (get_pageN 2 [rowA, rowB, rowC] (some ((5 : ℚ), 1))).has_more = false
    ∧ (get_page [rowA, rowB, rowC] none).vocabs = [rowA, rowB, rowC] := by
  decide

/-- Claim C2 (code bug): walking all pages with the returned cursors is claimed
to yield every entry exactly once.  On six rows with one shared freq the code
emits ids 1..5 ascending, resumes at `id < 5`, and re-emits ids 1..4 while
never emitting id 6: the concatenation has duplicates and a skip. -/
theorem paginate_duplicate_eval :
    ¬ (paginate 3 tieStore none).Nodup
    ∧ tieVocab 6 ∈ tieStore
    ∧ tieVocab 6 ∉ paginate 3 tieStore none
    ∧ paginate 3 tieStore none =
        [tieVocab 1, tieVocab 2, tieVocab 3, tieVocab 4, tieVocab 5,
         tieVocab 1, tieVocab 2, tieVocab 3, tieVocab 4] := by
  decide

/-- Claim C6 (code bug): on a nonexistent id the claim requires a
distinguishable not-found client error and no crash for view, edit and delete.
Only delete raises 404; the HTML view and edit-form handlers render their
template with `None`, and the JSON view handler crashes with
`AttributeError`. -/
theorem missing_id_eval :
    vocabs_view ([] : Store) 1 = Response.template none
    ∧ vocabs_view ([] : Store) 1 ≠ Response.httpError 404 "Vocab not found"
    ∧ vocabs_edit_get ([] : Store) 1 = Response.template none
    ∧ json_vocabs_view ([] : Store) 1 = Response.crash "AttributeError"
    ∧ vocabs_delete ([] : Store) 1 none
        = (([] : Store), Response.httpError 404 "Vocab not found") := by
  decide

/-- Claim C10: `archive_to_json` never returns normally — for every store it
writes the complete dump to the output file and then raises
`NotImplementedError`, so the caller always observes the failure. -/
theorem archive_always_raises (s : Store) (f : String) :
    (archive_to_json s f).result = PyOutcome.raised "NotImplementedError"
    ∧ (archive_to_json s f).result ≠ PyOutcome.ok
    ∧ (archive_to_json s f).content = jsonDump false s
    ∧ (archive_to_json s f).out_file = f :=
  ⟨rfl, by simp [archive_to_json], rfl, rfl⟩

/-- Claim C3: `get_page` keeps exactly the rows passing the cursor predicate
(everything when no cursor), limited to `PAGE_SIZE + 1` fetched rows; it
reports `has_more` exactly when `PAGE_SIZE + 1` rows came back, emitting only
the first `PAGE_SIZE` of them in that case and all fetched rows otherwise. -/
theorem get_page_mechanics (s : Store) (c : Option Cursor) :
    (get_page s c).has_more = decide ((fetchResults s c).length > PAGE_SIZE)
    ∧ (get_page s c).vocabs
        = (if (fetchResults s c).length > PAGE_SIZE
           then (fetchResults s c).take PAGE_SIZE else fetchResults s c)
    ∧ (∀ v ∈ (get_page s c).vocabs, matchesCursor c v = true)
    ∧ (fetchResults s c).length ≤ PAGE_SIZE + 1
    ∧ (∀ v, matchesCursor none v = true) := by
  refine ⟨rfl, ?_, ?_, ?_, fun v => rfl⟩
  · split
    · rfl
    · exact List.take_of_length_le (Nat.le_of_not_lt (by assumption))
  · intro v hv
    have h1 : v ∈ fetchResults s c := List.take_subset _ _ hv
    have h2 : v ∈ List.insertionSort pageOrder (List.filter (matchesCursor c) s) :=
      List.take_subset _ _ h1
    have h3 : v ∈ List.filter (matchesCursor c) s := (List.mem_insertionSort _).mp h2
    exact List.of_mem_filter h3
  · calc (fetchResults s c).length
        ≤ PAGE_SIZE + 1 := by
          unfold fetchResults fetchResultsN
          exact (List.length_take _ _).le.trans (Nat.min_le_left _ _)

/-- Witness for C3 at a concrete store: the `has_more` formula, a fetched-row
bound, and cursor-predicate facts, including one discharged membership
hypothesis. -/
theorem get_page_mechanics_witness :
    (get_page tieStore none).has_more
        = decide ((fetchResults tieStore none).length > PAGE_SIZE)
    ∧ (fetchResults tieStore none).length ≤ PAGE_SIZE + 1
    ∧ matchesCursor none rowA = true
    ∧ matchesCursor none (tieVocab 1) = true :=
  ⟨(get_page_mechanics tieStore none).1,
   (get_page_mechanics tieStore none).2.2.2.1,
   (get_page_mechanics tieStore none).2.2.2.2 rowA,
   (get_page_mechanics tieStore none).2.2.1 (tieVocab 1) (by decide)⟩

/-- Claim C4: when the free-text parameter `q` is present the handler answers
with exactly the rows whose `word`, `context` or `source` contains the term
case-insensitively, ordered by freq descending only, as one batch with
`has_more = false` (fragment for active search, full page otherwise),
independently of any cursor parameters. -/
theorem search_branch_unpaged (s : Store) (p : QueryParams) (term : String)
    (hq : p.q = some term) :
    vocabs s p = (if p.hx_trigger = some "search"
        then Response.fragment { vocabs := search_db s term, has_more := false }
        else Response.fullPage { vocabs := search_db s term, has_more := false })
    ∧ vocabs s p = vocabs s { p with last_freq := none, last_id := none }
    ∧ List.Perm (search_db s term) (List.filter (searchMatch term) s)
    ∧ List.Pairwise (fun a b => b.freq ≤ a.freq) (search_db s term)
    ∧ (∀ v, v ∈ search_db s term ↔ v ∈ s ∧ searchMatch term v = true) := by
  refine ⟨?_, ?_, ?_, ?_, ?_⟩
  · simp only [vocabs, hq]
  · simp only [vocabs, hq]
  · exact List.perm_insertionSort _ _
  · exact List.sorted_insertionSort searchOrder _
  · intro v
    rw [search_db, List.mem_insertionSort, List.mem_filter]

/-- Witness for C4: the search branch on a concrete store and a request whose
parameters carry a stale cursor. -/
theorem search_branch_unpaged_witness :
    List.Perm (search_db [rowA, rowB, rowC] "a")
        (List.filter (searchMatch "a") [rowA, rowB, rowC])
    ∧ vocabs [rowA, rowB, rowC] qpW
        = vocabs [rowA, rowB, rowC] { qpW with last_freq := none, last_id := none } :=
  ⟨(search_branch_unpaged [rowA, rowB, rowC] qpW "a" rfl).2.2.1,
   (search_branch_unpaged [rowA, rowB, rowC] qpW "a" rfl).2.1⟩

/-- Claim C5: creating an entry whose word duplicates a stored row makes the
commit fail; the handler rolls back, so the store is unchanged (no partial
commit), and new.html is re-rendered with the candidate carrying the rejected
values — word, recomputed freq, context and source as submitted. -/
theorem new_post_duplicate_rollback (zf : String → ℚ) (today : String) (s : Store)
    (f : VocabForm) (hw : f.word ≠ "") (hdup : ∃ v ∈ s, v.word = f.word) :
    vocabs_new_post zf today s f = (s, Response.newForm (newCandidate zf f))
    ∧ (newCandidate zf f).word = some f.word
    ∧ (newCandidate zf f).freq = some (zf f.word)
    ∧ (newCandidate zf f).context = optOfField f.context
    ∧ (newCandidate zf f).source = optOfField f.source := by
  have h1 : optOfField f.word = some f.word := by
    unfold optOfField
    rw [if_neg hw]
  have h2 : s.any (fun v => v.word == f.word) = true := by
    rcases hdup with ⟨v, hv, he⟩
    exact List.any_eq_true.mpr ⟨v, hv, by simp [he]⟩
  refine ⟨?_, ?_, ?_, rfl, rfl⟩
  · unfold vocabs_new_post
    rw [h1]
    simp [h2]
  · simp [newCandidate, h1]
  · simp [newCandidate, h1]

/-- Witness for C5: a duplicate create against a store holding the word
already. -/
theorem new_post_duplicate_rollback_witness :
    vocabs_new_post zfW "2024-02-02" [rowA] ⟨"a", "ctx", "src"⟩
        = ([rowA], Response.newForm (newCandidate zfW ⟨"a", "ctx", "src"⟩))
    ∧ (newCandidate zfW ⟨"a", "ctx", "src"⟩).word = some "a"
    ∧ (newCandidate zfW ⟨"a", "ctx", "src"⟩).freq = some (zfW "a")
    ∧ (newCandidate zfW ⟨"a", "ctx", "src"⟩).context = optOfField "ctx"
    ∧ (newCandidate zfW ⟨"a", "ctx", "src"⟩).source = optOfField "src" :=
  new_post_duplicate_rollback zfW "2024-02-02" [rowA] ⟨"a", "ctx", "src"⟩
    (by decide) ⟨rowA, by decide, by decide⟩

/-- Claim C7: both mutation handlers preserve freq/word consistency — a
created row gets `freq = zf word`, and an edit recomputes `freq` exactly when
the word changes, so a store whose rows are all consistent stays consistent
after any create or edit (on failure the store is unchanged). -/
theorem freq_consistent_preserved (zf : String → ℚ) (today : String) (s : Store)
    (h : consistentFreq zf s) :
    (∀ f : VocabForm, consistentFreq zf (vocabs_new_post zf today s f).1)
    ∧ (∀ (vid : Nat) (f : VocabForm), consistentFreq zf (vocabs_edit_post zf s vid f).1) := by
  constructor
  · intro f v hv
    unfold vocabs_new_post at hv
    split at hv
    · exact h v hv
    · split at hv
      · exact h v hv
      · rcases List.mem_append.mp hv with hv | hv
        · exact h v hv
        · rw [List.mem_singleton] at hv
          subst hv
          rfl
  · intro vid f v hv
    unfold vocabs_edit_post at hv
    split at hv
    · exact h v hv
    · next db hdb =>
      split at hv
      · exact h v hv
      · rcases List.mem_map.mp hv with ⟨x, hx, hxe⟩
        by_cases hid : x.id = vid
        · rw [if_pos hid] at hxe
          rw [← hxe]
          show (updatedVocab zf db f).freq = zf (updatedVocab zf db f).word
          unfold updatedVocab
          by_cases hword : db.word = f.word
          · simp only [if_pos hword]
            have hc := h db (List.mem_of_find?_eq_some hdb)
            rw [hc, hword]
          · simp only [if_neg hword]
        · rw [if_neg hid] at hxe
          rw [← hxe]
          exact h x hx

/-- Witness for C7: a consistent one-row store under the word-length scorer. -/
theorem freq_consistent_preserved_witness :
    (∀ f : VocabForm,
      consistentFreq zfW (vocabs_new_post zfW "2024-02-02" [⟨1, "a", none, none, 1, "d"⟩] f).1)
    ∧ (∀ (vid : Nat) (f : VocabForm),
      consistentFreq zfW (vocabs_edit_post zfW [⟨1, "a", none, none, 1, "d"⟩] vid f).1) :=
  freq_consistent_preserved zfW "2024-02-02" [⟨1, "a", none, none, 1, "d"⟩]
    (by unfold consistentFreq; decide)

/-- Splitting the bulk-delete loop at a list split: the tail runs from the
store the prefix left behind, and a prefix failure short-circuits. -/
theorem deleteLoop_append (s : Store) (l₁ l₂ : List Nat) :
    deleteLoop s (l₁ ++ l₂) =
      (match deleteLoop s l₁ with
       | (s₂, none) => deleteLoop s₂ l₂
       | (s₂, some d) => (s₂, some d)) := by
  induction l₁ generalizing s with
  | nil => simp [deleteLoop]
  | cons i rest ih =>
    simp only [List.cons_append, deleteLoop]
    cases findVocab s i with
    | none => rfl
    | some v => exact ih (eraseVocab s i)

/-- A successful run of the bulk-delete loop leaves exactly the rows whose id
is not in the processed list. -/
theorem deleteLoop_none_filter (l : List Nat) (s s₁ : Store)
    (h : deleteLoop s l = (s₁, none)) :
    s₁ = List.filter (fun v => !(l.contains v.id)) s := by
  induction l generalizing s with
  | nil =>
    simp only [deleteLoop, Prod.mk.injEq] at h
    rw [← h.1]
    simp
  | cons i rest ih =>
    simp only [deleteLoop] at h
    cases hf : findVocab s i with
    | none =>
      rw [hf] at h
      simp at h
    | some v =>
      rw [hf] at h
      have hrec := ih (eraseVocab s i) h
      rw [hrec]
      unfold eraseVocab
      rw [List.filter_filter]
      refine List.filter_congr ?_
      intro a _
      by_cases ha : a.id = i
      · simp [ha, List.contains_cons]
      · have : ¬ (i = a.id) := fun he => ha he.symm
        simp [ha, this, List.contains_cons]

/-- Claim C9: bulk delete commits row by row, so when the id list reaches an
id with no row, the handler surfaces the 404 but every id processed before it
is already gone from the store for good. -/
theorem bulk_delete_keeps_deleted (s s₁ : Store) (doneIds : List Nat) (bad : Nat)
    (rest : List Nat) (h₁ : deleteLoop s doneIds = (s₁, none))
    (h₂ : findVocab s₁ bad = none) :
    vocabs_delete_bulk s (doneIds ++ bad :: rest)
        = (s₁, Response.httpError 404 "Vocab not found")
    ∧ s₁ = List.filter (fun v => !(doneIds.contains v.id)) s
    ∧ (∀ i ∈ doneIds, findVocab s₁ i = none) := by
  have hfil := deleteLoop_none_filter doneIds s s₁ h₁
  refine ⟨?_, hfil, ?_⟩
  · unfold vocabs_delete_bulk
    rw [deleteLoop_append, h₁]
    simp only [deleteLoop, h₂]
  · intro i hi
    refine List.find?_eq_none.mpr ?_
    intro x hx
    rw [hfil] at hx
    have hmem := List.of_mem_filter hx
    intro hpx
    have hxi : x.id = i := eq_of_beq hpx
    rw [hxi] at hmem
    have : doneIds.contains i = true := List.elem_eq_true_of_mem hi
    rw [this] at hmem
    simp at hmem

/-- Witness for C9: deleting ids `[1, 99, 3]` from the example store removes
row 1, then fails on 99 with the 404 while row 1 stays deleted. -/
theorem bulk_delete_keeps_deleted_witness :
    vocabs_delete_bulk [rowA, rowB, rowC] ([1] ++ 99 :: [3])
        = ([rowB, rowC], Response.httpError 404 "Vocab not found")
    ∧ [rowB, rowC] = List.filter (fun v => !([1].contains v.id)) [rowA, rowB, rowC]
    ∧ (∀ i ∈ [1], findVocab [rowB, rowC] i = none) :=
  bulk_delete_keeps_deleted [rowA, rowB, rowC] [rowB, rowC] [1] 99 [3]
    (by decide) (by decide)

/-- String append acts as list append on the character data. -/
theorem data_append (s t : String) : (s ++ t).data = s.data ++ t.data := by
  cases s
  cases t
  rfl

/-- Building a string from a char list keeps the data. -/
theorem data_mk (l : List Char) : (String.mk l).data = l := rfl

/-- With `ensure_ascii` off, a character outside ASCII is kept literal by the
escaping rule. -/
theorem jsonEscapeChar_nonascii {c : Char} (h : 128 ≤ c.toNat) :
    jsonEscapeChar false c = String.mk [c] := by
  have h1 : c ≠ '"' := by
    intro he
    subst he
    revert h
    decide
  have h2 : c ≠ '\\' := by
    intro he
    subst he
    revert h
    decide
  have h3 : ¬ c.toNat < 32 := by omega
  unfold jsonEscapeChar
  rw [if_neg h1, if_neg h2, if_neg h3]
  simp

/-- A non-ASCII character of the body survives escaping literally. -/
theorem mem_escapeData {c : Char} {cs : List Char} (hc : c ∈ cs) (h : 128 ≤ c.toNat) :
    c ∈ escapeData false cs := by
  unfold escapeData
  refine List.mem_flatMap.mpr ⟨c, hc, ?_⟩
  rw [jsonEscapeChar_nonascii h]
  exact List.mem_singleton.mpr rfl

/-- A non-ASCII character of a row's word occurs literally in the serialized
row. -/
theorem mem_word_rowToJson {c : Char} {r : Vocab} (hc : c ∈ r.word.data)
    (h : 128 ≤ c.toNat) : c ∈ (rowToJson false r).data := by
  have hmem : c ∈ escapeData false r.word.data := mem_escapeData hc h
  unfold rowToJson jsonStr
  simp only [data_append, data_mk, List.mem_append]
  tauto

/-- Every member of the joined row list occurs inside the joined output. -/
theorem mem_joinRows_within {x : String} : ∀ {l : List String}, x ∈ l →
    x.data <:+: (joinRows l).data := by
  intro l
  induction l with
  | nil =>
    intro hx
    exact absurd hx (List.not_mem_nil x)
  | cons r rest ih =>
    intro hx
    cases rest with
    | nil =>
      rw [List.mem_singleton] at hx
      subst hx
      exact List.infix_refl _
    | cons r₂ rest₂ =>
      have hj : joinRows (r :: r₂ :: rest₂) = r ++ ",\n" ++ joinRows (r₂ :: rest₂) := rfl
      rw [hj, data_append, data_append]
      rcases List.mem_cons.mp hx with he | hmem
      · subst he
        exact ⟨[], (",\n").data ++ (joinRows (r₂ :: rest₂)).data, by simp⟩
      · refine (ih hmem).trans ?_
        exact ⟨r.data ++ (",\n").data, [], by simp⟩

/-- Every stored row's serialization occurs inside the full dump. -/
theorem rowToJson_within_dump {r : Vocab} {rows : List Vocab} (hr : r ∈ rows) :
    (rowToJson false r).data <:+: (jsonDump false rows).data := by
  have h1 : rowToJson false r ∈ rows.map (rowToJson false) :=
    List.mem_map_of_mem _ hr
  unfold jsonDump
  rw [data_append, data_append]
  refine (mem_joinRows_within h1).trans ?_
  exact ⟨"[".data, "]".data, by simp⟩

/-- Claim C8: the archive export writes every row of the store into the output
file as structured JSON, and — the dump running with `ensure_ascii` off —
non-ASCII characters are preserved literally rather than escaped. -/
theorem archive_nonascii_snapshot (s : Store) (f : String) :
    (∀ r ∈ s, (rowToJson false r).data <:+: (archive_to_json s f).content.data)
    ∧ (∀ r ∈ s, ∀ c ∈ r.word.data, 128 ≤ c.toNat → c ∈ (archive_to_json s f).content.data)
    ∧ (∀ c : Char, 128 ≤ c.toNat → jsonEscapeChar false c = String.mk [c]) := by
  refine ⟨?_, ?_, fun c h => jsonEscapeChar_nonascii h⟩
  · intro r hr
    exact rowToJson_within_dump hr
  · intro r hr c hc h
    exact (rowToJson_within_dump hr).subset (mem_word_rowToJson hc h)

/-- Witness for C8: archiving a store holding the word `año`; the letter `ñ`
appears literally in the written file. -/
theorem archive_nonascii_snapshot_witness :
    (rowToJson false rowN).data <:+: (archive_to_json [rowN] "vocabs.json").content.data
    ∧ 'ñ' ∈ (archive_to_json [rowN] "vocabs.json").content.data
    ∧ jsonEscapeChar false 'ñ' = String.mk ['ñ'] :=
  ⟨(archive_nonascii_snapshot [rowN] "vocabs.json").1 rowN (by decide),
   (archive_nonascii_snapshot [rowN] "vocabs.json").2.1 rowN (by decide) 'ñ' (by decide)
     (by decide),
   (archive_nonascii_snapshot [rowN] "vocabs.json").2.2 'ñ' (by decide)⟩
